import Mathlib

/-!
Shallow embedding of the replenishment-and-production core of the
indago_full_system repository (src/inventory_app.py and
src/kitchen_app_with_ui.py / src/kitchen_app.py), together with theorems
settling the frozen claims about it.

Modelling conventions:
* SQLite tables become association lists kept in declaration order
  (`inventory` and `procurement_log` rows, `batch_consumption` rows).
* Python ints become `Int` (stock may in principle be any integer; the
  seeded values are naturals), quantities read from recipes become `Int`.
* The float constant `LOW_STOCK_THRESHOLD = 0.1` is embedded as the exact
  rational 1/10: for both seeded baselines (10000 and 100000) the IEEE-754
  double products `10000 * 0.1` and `100000 * 0.1` are exactly `1000.0`
  and `10000.0`, so the source comparison `remaining <= baseline * 0.1`
  agrees with the exact rational comparison for every integer `remaining`.
  Likewise `int(baseline * 0.5)` equals `baseline / 2` (natural division)
  because `baseline * 0.5` is exact and `int` truncates.
* The external Approval collaborator (`requests.post` to the finance
  service) is modelled by an `ApprovalOutcome` oracle: a transport error
  (an exception from `requests.post`) or an HTTP response with status code
  and body text. `resp.raise_for_status()` raises exactly when the status
  code lies in [400, 600).
* Wall-clock data (`created_at`, timestamp-derived `order_id`) is omitted:
  no claim mentions it.
-/

namespace Indago

/-- Seeded inventory baselines, from `SEED_INVENTORY` in src/inventory_app.py. -/
def SEED_INVENTORY : List (String × Nat) := [("beans", 10000), ("milk", 100000)]

/-- Units per item, from `ITEM_UNITS` in src/inventory_app.py. -/
def ITEM_UNITS : List (String × String) := [("beans", "g"), ("milk", "ml")]

/-- The low-stock threshold 0.1 of src/inventory_app.py, as an exact rational
(see the module comment for why this is faithful to the float). -/
def LOW_STOCK_THRESHOLD : ℚ := 1/10

/-- Dictionary lookup on a string-keyed association list (first match wins,
like a Python dict in which each key occurs once). -/
def lookupAssoc {α : Type} (l : List (String × α)) (k : String) : Option α :=
  (l.find? (fun p => p.1 == k)).map (fun p => p.2)

/-- The `SEED_INVENTORY.get(item)` lookup used for baselines. -/
def baselineOf (item : String) : Option Nat := lookupAssoc SEED_INVENTORY item

/-- Embedding of `should_trigger_purchase` (src/inventory_app.py lines 86-88):
`baseline is not None and remaining <= baseline * LOW_STOCK_THRESHOLD`. The
comparison is written over integers as `remaining * 10 ≤ baseline`, which is
equivalent to the exact `remaining ≤ baseline * (1/10)` (proved in the C5
theorem below) and hence to the source float comparison for the seeded
baselines (module comment). -/
def should_trigger_purchase (item : String) (remaining : Int) : Bool :=
  match baselineOf item with
  | none => false
  | some b => decide (remaining * 10 ≤ (b : Int))

/-- Embedding of `calculate_replenishment_quantity` (src/inventory_app.py
lines 91-93): `max(baseline - remaining, int(baseline * 0.5))` with
`baseline = SEED_INVENTORY.get(item, 0)`. -/
def calculate_replenishment_quantity (item : String) (remaining : Int) : Int :=
  max (((baselineOf item).getD 0 : Int) - remaining) (((baselineOf item).getD 0 / 2 : Nat) : Int)

/-- One row of the `procurement_log` table (timestamp and generated order id
omitted, see module comment). -/
structure ProcEntry where
  item_name : String
  quantity_needed : Int
  unit : Option String
  current_stock : Int
  status : String
  response : Option String
deriving DecidableEq, Repr

/-- Status values counted as an open request: `status IN ('pending', 'submitted')`. -/
def isOpenStatus (s : String) : Bool := s == "pending" || s == "submitted"

/-- Embedding of `has_open_procurement` (src/inventory_app.py lines 96-103):
is there any row for `item` with status pending or submitted? -/
def has_open_procurement (log : List ProcEntry) (item : String) : Bool :=
  log.any (fun e => e.item_name == item && isOpenStatus e.status)

/-- Outcome of the synchronous `requests.post` to the finance Approval
endpoint: either the call raises (network error, timeout, ...) or it returns
an HTTP response with a status code and a body text. -/
inductive ApprovalOutcome where
  | transportError (msg : String)
  | response (httpStatus : Nat) (body : String)
deriving DecidableEq, Repr

/-- Semantics of `resp.raise_for_status()` from the requests library: it
raises `HTTPError` exactly for status codes in [400, 600). -/
def raise_for_status_fails (code : Nat) : Bool := decide (400 ≤ code ∧ code < 600)

/-- Stand-in for `str(HTTPError)` produced by `raise_for_status` on a 4xx/5xx
response; the claims only need that some error text is persisted. -/
def httpErrorText (code : Nat) : String := toString code ++ " Error"

/-- Final (status, response_body) pair computed by the try/except block of
`trigger_purchase_request` (src/inventory_app.py lines 139-150): on a
transport error the exception text is persisted; on a 4xx/5xx response
`raise_for_status` raises and its text overwrites `resp.text`; otherwise
status becomes submitted with the response body persisted. -/
def dispatchStatus (o : ApprovalOutcome) : String × Option String :=
  match o with
  | .transportError msg => ("failed", some msg)
  | .response code body =>
    if raise_for_status_fails code then ("failed", some (httpErrorText code))
    else ("submitted", some body)

/-- The procurement row built from the payload of `trigger_purchase_request`
plus the final status and response body handed to `log_procurement`. -/
def mkProcEntry (item : String) (remaining : Int) (st : String) (resp : Option String) : ProcEntry :=
  ⟨item, calculate_replenishment_quantity item remaining, lookupAssoc ITEM_UNITS item,
    remaining, st, resp⟩

/-- Rows of the procurement log counted by `has_open_procurement` for one
item: same predicate, as a list. -/
def openRows (log : List ProcEntry) (item : String) : List ProcEntry :=
  log.filter (fun e => e.item_name == item && isOpenStatus e.status)

/-- The advisory open-request invariant of the spec: at most one row with
status pending or submitted per item. Stated over the rows of the log so it
is decidable on concrete logs. -/
def ProcInvariant (log : List ProcEntry) : Prop :=
  ∀ e ∈ log, isOpenStatus e.status = true → (openRows log e.item_name).length ≤ 1

instance (log : List ProcEntry) : Decidable (ProcInvariant log) :=
  List.decidableBAll _ log

/-- Embedding of `trigger_purchase_request` (src/inventory_app.py lines
123-152). Returns the new procurement log and the number of Approval calls
made (0 when the open-request guard fires, 1 otherwise). -/
def trigger_purchase_request (outcome : ApprovalOutcome) (log : List ProcEntry)
    (item : String) (remaining : Int) : List ProcEntry × Nat :=
  if has_open_procurement log item then (log, 0)
  else
    let sr := dispatchStatus outcome
    (log ++ [mkProcEntry item remaining sr.1 sr.2], 1)

/-- State of the inventory service: the `inventory` table and the
`procurement_log` table. -/
structure InvState where
  inventory : List (String × Int)
  procurement_log : List ProcEntry
deriving DecidableEq, Repr

/-- Store a quantity for an item: `UPDATE` when the row exists, the
`INSERT OR IGNORE` + `UPDATE` pair of `apply_consumption` when it does not. -/
def setStock (inv : List (String × Int)) (item : String) (q : Int) : List (String × Int) :=
  if inv.any (fun p => p.1 == item) then
    inv.map (fun p => if p.1 == item then (item, q) else p)
  else inv ++ [(item, q)]

/-- The `SELECT quantity FROM inventory WHERE item = ?` lookup. -/
def lookupStock (inv : List (String × Int)) (item : String) : Option Int :=
  lookupAssoc inv item

/-- One row of the consumption list POSTed by the kitchen. -/
structure ConsumptionRow where
  item : String
  quantity : Int
deriving DecidableEq, Repr

/-- One iteration of the loop in `apply_consumption` (src/inventory_app.py
lines 163-181): clamp the new quantity at 0, store it, and evaluate the
replenishment trigger with the post-consumption quantity. `k` counts the
Approval calls made so far and indexes the oracle. -/
def applyRow (approvals : Nat → ApprovalOutcome) (k : Nat) (st : InvState)
    (row : ConsumptionRow) : InvState × Nat :=
  let current : Int := (lookupStock st.inventory row.item).getD 0
  let new_qty : Int := max (current - row.quantity) 0
  let inv := setStock st.inventory row.item new_qty
  if should_trigger_purchase row.item new_qty then
    let lr := trigger_purchase_request (approvals k) st.procurement_log row.item new_qty
    (⟨inv, lr.1⟩, k + lr.2)
  else (⟨inv, st.procurement_log⟩, k)

/-- Embedding of `apply_consumption` (src/inventory_app.py lines 159-184):
process the rows sequentially, threading the state and the Approval-call
counter. -/
def apply_consumption (approvals : Nat → ApprovalOutcome) (st : InvState)
    (rows : List ConsumptionRow) : InvState :=
  (rows.foldl (fun p row => applyRow approvals p.2 p.1 row) (st, 0)).1

/-- One line of a recipe (bill of materials). -/
structure RecipeLine where
  item : String
  qty_per_unit : Int
  unit : String
deriving DecidableEq, Repr

/-- The static `RECIPES` table of src/kitchen_app_with_ui.py lines 17-26
(identical in src/kitchen_app.py). `RECIPES.get(product)` returning `None`
and the empty recipe are merged into the empty list: the source guard
`if not recipe` skips both. Note the keys are the literal strings
"capucino" and "Latte" (capital L). -/
def RECIPES : String → List RecipeLine := fun product =>
  if product == "capucino" then [⟨"beans", 10, "g"⟩, ⟨"milk", 150, "ml"⟩]
  else if product == "Latte" then [⟨"beans", 8, "g"⟩, ⟨"milk", 200, "ml"⟩]
  else []

/-- One order from the external order service. -/
structure Order where
  date : String
  product : String
  quantity : Int
deriving DecidableEq, Repr

/-- One entry of the `required` mapping (item, accumulated quantity, unit). -/
structure ReqEntry where
  item : String
  quantity : Int
  unit : String
deriving DecidableEq, Repr

/-- Accumulate one recipe-line contribution into the requirement mapping,
preserving Python dict insertion order: update in place when the item is
already present, append otherwise; the unit is overwritten each time, as in
`required[r["item"]]["unit"] = r["unit"]`. -/
def addReq (acc : List ReqEntry) (item : String) (q : Int) (unit : String) : List ReqEntry :=
  if acc.any (fun e => e.item == item) then
    acc.map (fun e => if e.item == item then ⟨item, e.quantity + q, unit⟩ else e)
  else acc ++ [⟨item, q, unit⟩]

/-- Fold one order into the requirement mapping: every line of its recipe
contributes `order.quantity * qty_per_unit`. -/
def addOrder (recipes : String → List RecipeLine) (acc : List ReqEntry) (o : Order) :
    List ReqEntry :=
  (recipes o.product).foldl (fun a l => addReq a l.item (o.quantity * l.qty_per_unit) l.unit) acc

/-- The requirement-aggregation loop of `start_production`
(src/kitchen_app_with_ui.py lines 101-117), with explicit accumulators for
`required` and `skipped_products`. -/
def computeRequiredAux (recipes : String → List RecipeLine) (acc : List ReqEntry)
    (skipped : List String) : List Order → List ReqEntry × List String
  | [] => (acc, skipped)
  | o :: rest =>
    if (recipes o.product).isEmpty then
      computeRequiredAux recipes acc (skipped ++ [o.product]) rest
    else
      computeRequiredAux recipes (addOrder recipes acc o) skipped rest

/-- Requirements and skipped products aggregated from the orders of one date. -/
def computeRequired (recipes : String → List RecipeLine) (daily : List Order) :
    List ReqEntry × List String :=
  computeRequiredAux recipes [] [] daily

/-- The `stock_lookup.get(item, 0)` read on the snapshot fetched from the
inventory service: a Python dict comprehension lets later duplicates win,
hence the first match on the reversed list. -/
def stockAvail (stock : List (String × Int)) (item : String) : Int :=
  (lookupAssoc stock.reverse item).getD 0

/-- One element of the structured shortfall list. -/
structure Shortfall where
  item : String
  required : Int
  available : Int
  unit : String
deriving DecidableEq, Repr

/-- One row of the append-only `batch_consumption` table (timestamp omitted). -/
structure BatchRow where
  production_date : String
  item : String
  quantity : Int
  unit : String
deriving DecidableEq, Repr

/-- Result of one production run, as returned (or raised) by
`start_production` in src/kitchen_app_with_ui.py. -/
inductive ProdResult where
  | no_orders
  | no_recipes_matched (skipped_products : List String)
  | insufficient (details : List Shortfall) (required : List ReqEntry)
  | success (inserted_rows : Nat) (required : List ReqEntry) (skipped_products : List String)
deriving DecidableEq, Repr

/-- The shortfall record built for one insufficient requirement. -/
def mkShortfall (stock : List (String × Int)) (e : ReqEntry) : Shortfall :=
  ⟨e.item, e.quantity, stockAvail stock e.item, e.unit⟩

/-- The stock-validation loop of `start_production` (lines 137-146): collect
a shortfall for every required item whose available stock is below the
requirement, in requirement order. -/
def shortRequirements (stock : List (String × Int)) (required : List ReqEntry) :
    List Shortfall :=
  (required.filter (fun e => decide (stockAvail stock e.item < e.quantity))).map (mkShortfall stock)

/-- The rows appended to `batch_consumption` on a successful run: one per
required item. -/
def batchRowsFor (date : String) (required : List ReqEntry) : List BatchRow :=
  required.map (fun e => ⟨date, e.item, e.quantity, e.unit⟩)

/-- The date filter of `start_production`: orders whose date equals the
production date exactly (string equality). -/
def daily_orders (orders : List Order) (production_date : String) : List Order :=
  orders.filter (fun o => o.date == production_date)

/-- Embedding of `start_production` (src/kitchen_app_with_ui.py lines
71-186): filter the fetched orders by exact date equality, aggregate
requirements, return the distinguished empty results, validate against the
stock snapshot, and either abort with the full shortfall list (writing
nothing) or append one batch row per required item. The orders and stock
snapshot fetched over HTTP, and the global `RECIPES`, are passed as
arguments; `log` is the pre-existing `batch_consumption` table. -/
def start_production (recipes : String → List RecipeLine) (orders : List Order)
    (stock : List (String × Int)) (production_date : String) (log : List BatchRow) :
    ProdResult × List BatchRow :=
  let daily := daily_orders orders production_date
  if daily.isEmpty then (.no_orders, log)
  else
    let rs := computeRequired recipes daily
    if rs.1.isEmpty then (.no_recipes_matched rs.2, log)
    else
      let short := shortRequirements stock rs.1
      if short.isEmpty then
        (.success rs.1.length rs.1 rs.2, log ++ batchRowsFor production_date rs.1)
      else (.insufficient short rs.1, log)

/-! ### Helper lemmas about the association-list stores -/

theorem find?_map_update (item : String) (q : Int) (inv : List (String × Int))
    (h : inv.any (fun p => p.1 == item) = true) :
    (inv.map (fun p => if p.1 == item then (item, q) else p)).find? (fun p => p.1 == item)
      = some (item, q) := by
  induction inv with
  | nil => simp at h
  | cons a t ih =>
    by_cases ha : (a.1 == item) = true
    · simp only [List.map_cons, if_pos ha]
      exact List.find?_cons_of_pos _ (by simp)
    · have ht : t.any (fun p => p.1 == item) = true := by
        simp only [List.any_cons, ha, Bool.false_or] at h
        exact h
      simp only [List.map_cons, if_neg ha]
      rw [List.find?_cons_of_neg _ (by simpa using ha)]
      exact ih ht

theorem find?_append_single (item : String) (q : Int) (inv : List (String × Int))
    (h : inv.any (fun p => p.1 == item) = false) :
    (inv ++ [(item, q)]).find? (fun p => p.1 == item) = some (item, q) := by
  rw [List.find?_append]
  have hnone : inv.find? (fun p => p.1 == item) = none := by
    rw [List.find?_eq_none]
    intro x hx
    exact List.any_eq_false.mp h x hx
  rw [hnone]
  simp [List.find?]

theorem lookupStock_setStock_self (inv : List (String × Int)) (item : String) (q : Int) :
    lookupStock (setStock inv item q) item = some q := by
  unfold lookupStock lookupAssoc setStock
  by_cases h : inv.any (fun p => p.1 == item) = true
  · rw [if_pos h, find?_map_update item q inv h]
    rfl
  · rw [if_neg h, find?_append_single item q inv (Bool.eq_false_iff.mpr h)]
    rfl

theorem mem_setStock {inv : List (String × Int)} {item : String} {q : Int} {p : String × Int}
    (hp : p ∈ setStock inv item q) : p = (item, q) ∨ p ∈ inv := by
  unfold setStock at hp
  by_cases h : inv.any (fun p => p.1 == item) = true
  · rw [if_pos h] at hp
    rcases List.mem_map.mp hp with ⟨a, ha, hfa⟩
    by_cases h2 : (a.1 == item) = true
    · left
      rw [← hfa, if_pos h2]
    · right
      rw [← hfa, if_neg h2]
      exact ha
  · rw [if_neg h] at hp
    rcases List.mem_append.mp hp with h1 | h1
    · right; exact h1
    · left; simpa using h1

theorem baselineOf_cases (item : String) (b : Nat) (hb : baselineOf item = some b) :
    b = 10000 ∨ b = 100000 := by
  by_cases h1 : (("beans" : String) == item) = true
  · left
    simp [baselineOf, lookupAssoc, SEED_INVENTORY, List.find?, h1] at hb
    omega
  · by_cases h2 : (("milk" : String) == item) = true
    · right
      simp [baselineOf, lookupAssoc, SEED_INVENTORY, List.find?, h1, h2] at hb
      omega
    · simp [baselineOf, lookupAssoc, SEED_INVENTORY, List.find?, h1, h2] at hb

theorem trigger_ineq_iff (b : ℕ) (r : ℤ) :
    r * 10 ≤ (b : ℤ) ↔ (r : ℚ) ≤ (b : ℚ) * LOW_STOCK_THRESHOLD := by
  rw [show (b : ℚ) * LOW_STOCK_THRESHOLD = (b : ℚ) / 10 by
        rw [LOW_STOCK_THRESHOLD]; ring,
      le_div_iff₀ (by norm_num : (0 : ℚ) < 10)]
  constructor
  · intro h
    exact_mod_cast h
  · intro h
    exact_mod_cast h

/-! ### Helper lemmas about consumption steps -/

theorem applyRow_inventory (approvals : Nat → ApprovalOutcome) (k : Nat) (st : InvState)
    (row : ConsumptionRow) :
    (applyRow approvals k st row).1.inventory
      = setStock st.inventory row.item
          (max ((lookupStock st.inventory row.item).getD 0 - row.quantity) 0) := by
  by_cases hsp : should_trigger_purchase row.item
      (max ((lookupStock st.inventory row.item).getD 0 - row.quantity) 0) = true <;>
    simp [applyRow, hsp]

theorem applyRow_log (approvals : Nat → ApprovalOutcome) (k : Nat) (st : InvState)
    (row : ConsumptionRow) :
    (applyRow approvals k st row).1.procurement_log
      = if should_trigger_purchase row.item
            (max ((lookupStock st.inventory row.item).getD 0 - row.quantity) 0) = true
        then (trigger_purchase_request (approvals k) st.procurement_log row.item
               (max ((lookupStock st.inventory row.item).getD 0 - row.quantity) 0)).1
        else st.procurement_log := by
  by_cases hsp : should_trigger_purchase row.item
      (max ((lookupStock st.inventory row.item).getD 0 - row.quantity) 0) = true <;>
    simp [applyRow, hsp]

theorem apply_consumption_singleton (approvals : Nat → ApprovalOutcome) (st : InvState)
    (row : ConsumptionRow) :
    apply_consumption approvals st [row] = (applyRow approvals 0 st row).1 := rfl

theorem openRows_eq_nil_of_not_open (log : List ProcEntry) (item : String)
    (h : has_open_procurement log item = false) : openRows log item = [] := by
  unfold has_open_procurement at h
  unfold openRows
  rw [List.filter_eq_nil_iff]
  intro e he
  exact List.any_eq_false.mp h e he

theorem openRows_append (l1 l2 : List ProcEntry) (item : String) :
    openRows (l1 ++ l2) item = openRows l1 item ++ openRows l2 item :=
  List.filter_append _ _

theorem apply_consumption_nonneg_aux (approvals : Nat → ApprovalOutcome)
    (rows : List ConsumptionRow) :
    ∀ pr : InvState × Nat, (∀ p ∈ pr.1.inventory, 0 ≤ p.2) →
      ∀ p ∈ (rows.foldl (fun p row => applyRow approvals p.2 p.1 row) pr).1.inventory,
        0 ≤ p.2 := by
  induction rows with
  | nil =>
    intro pr hpos
    simpa using hpos
  | cons row rest ih =>
    intro pr hpos
    rw [List.foldl_cons]
    refine ih (applyRow approvals pr.2 pr.1 row) ?_
    intro p hp
    rw [applyRow_inventory] at hp
    rcases mem_setStock hp with h | h
    · rw [h]
      exact le_max_right _ _
    · exact hpos p h

/-! ### Helper lemmas about requirement aggregation -/

theorem addReq_ne_nil (acc : List ReqEntry) (item : String) (q : Int) (unit : String) :
    addReq acc item q unit ≠ [] := by
  unfold addReq
  by_cases h : acc.any (fun e => e.item == item) = true
  · rw [if_pos h]
    intro hc
    rw [List.map_eq_nil_iff] at hc
    subst hc
    simp at h
  · rw [if_neg h]
    simp

theorem foldl_addReq_ne_nil (lines : List RecipeLine) (o : Order) :
    ∀ acc : List ReqEntry, acc ≠ [] →
      lines.foldl (fun a l => addReq a l.item (o.quantity * l.qty_per_unit) l.unit) acc ≠ [] := by
  induction lines with
  | nil =>
    intro acc h
    simpa using h
  | cons l rest ih =>
    intro acc h
    rw [List.foldl_cons]
    exact ih _ (addReq_ne_nil _ _ _ _)

theorem addOrder_ne_nil (recipes : String → List RecipeLine) (acc : List ReqEntry) (o : Order)
    (h : (recipes o.product).isEmpty = false) : addOrder recipes acc o ≠ [] := by
  unfold addOrder
  rcases hr : recipes o.product with _ | ⟨l, rest⟩
  · rw [hr] at h
    simp at h
  · rw [List.foldl_cons]
    exact foldl_addReq_ne_nil rest o _ (addReq_ne_nil _ _ _ _)

theorem computeRequiredAux_ne_nil (recipes : String → List RecipeLine) :
    ∀ (rest : List Order) (acc : List ReqEntry) (sk : List String), acc ≠ [] →
      (computeRequiredAux recipes acc sk rest).1 ≠ [] := by
  intro rest
  induction rest with
  | nil =>
    intro acc sk h
    simpa [computeRequiredAux] using h
  | cons o t ih =>
    intro acc sk h
    unfold computeRequiredAux
    by_cases hre : (recipes o.product).isEmpty = true
    · rw [if_pos hre]
      exact ih acc _ h
    · rw [if_neg hre]
      exact ih _ sk (addOrder_ne_nil recipes acc o (Bool.eq_false_iff.mpr hre))

theorem computeRequiredAux_all_skipped_of_nil (recipes : String → List RecipeLine) :
    ∀ (rest : List Order) (acc : List ReqEntry) (sk : List String),
      (computeRequiredAux recipes acc sk rest).1 = [] →
      ∀ o ∈ rest, (recipes o.product).isEmpty = true := by
  intro rest
  induction rest with
  | nil =>
    intro acc sk _ o ho
    simp at ho
  | cons o t ih =>
    intro acc sk hnil o2 ho2
    unfold computeRequiredAux at hnil
    by_cases hre : (recipes o.product).isEmpty = true
    · rw [if_pos hre] at hnil
      rcases List.mem_cons.mp ho2 with h | h
      · subst h
        exact hre
      · exact ih acc _ hnil o2 h
    · rw [if_neg hre] at hnil
      exact absurd hnil
        (computeRequiredAux_ne_nil recipes t _ sk
          (addOrder_ne_nil recipes acc o (Bool.eq_false_iff.mpr hre)))

theorem computeRequiredAux_sk_mem (recipes : String → List RecipeLine) :
    ∀ (rest : List Order) (acc : List ReqEntry) (sk : List String) (x : String),
      x ∈ sk → x ∈ (computeRequiredAux recipes acc sk rest).2 := by
  intro rest
  induction rest with
  | nil =>
    intro acc sk x hx
    simpa [computeRequiredAux] using hx
  | cons o t ih =>
    intro acc sk x hx
    unfold computeRequiredAux
    by_cases hre : (recipes o.product).isEmpty = true
    · rw [if_pos hre]
      exact ih acc _ x (List.mem_append.mpr (Or.inl hx))
    · rw [if_neg hre]
      exact ih _ sk x hx

theorem computeRequiredAux_skipped_mem (recipes : String → List RecipeLine) :
    ∀ (rest : List Order) (acc : List ReqEntry) (sk : List String) (o : Order),
      o ∈ rest → (recipes o.product).isEmpty = true →
      o.product ∈ (computeRequiredAux recipes acc sk rest).2 := by
  intro rest
  induction rest with
  | nil =>
    intro acc sk o ho hre
    simp at ho
  | cons o2 t ih =>
    intro acc sk o ho hre
    unfold computeRequiredAux
    rcases List.mem_cons.mp ho with h | h
    · subst h
      rw [if_pos hre]
      exact computeRequiredAux_sk_mem recipes t acc _ o.product
        (List.mem_append.mpr (Or.inr (by simp)))
    · by_cases hre2 : (recipes o2.product).isEmpty = true
      · rw [if_pos hre2]
        exact ih acc _ o h hre
      · rw [if_neg hre2]
        exact ih _ sk o h hre

/-! ### Claim theorems -/

/-- C5: `should_trigger_purchase item remaining` is true exactly when the
item has a seeded baseline `b` and `remaining ≤ b * 0.1` (the threshold is
0.1 of the baseline, exact arithmetic being faithful to the source floats,
see the module comment), and is false for every item with no baseline. -/
theorem should_trigger_purchase_iff (item : String) (remaining : Int) :
    (should_trigger_purchase item remaining = true ↔
      ∃ b : ℕ, baselineOf item = some b ∧ (remaining : ℚ) ≤ (b : ℚ) * LOW_STOCK_THRESHOLD)
    ∧ (baselineOf item = none → should_trigger_purchase item remaining = false) := by
  cases h : baselineOf item with
  | none => simp [should_trigger_purchase, h]
  | some b => simp [should_trigger_purchase, h, trigger_ineq_iff]

/-- Witness for C5: the trigger fires for beans at exactly one-tenth of the
baseline and never fires for an item with no seeded baseline. -/
theorem should_trigger_purchase_iff_witness :
    should_trigger_purchase "beans" 1000 = true
    ∧ should_trigger_purchase "water" 7 = false :=
  ⟨(should_trigger_purchase_iff "beans" 1000).1.mpr
      ⟨10000, by decide, by norm_num [LOW_STOCK_THRESHOLD]⟩,
   (should_trigger_purchase_iff "water" 7).2 (by decide)⟩

/-- C6: for every seeded item with baseline `b`, the replenishment quantity
is `max(b - remaining, floor(b * 0.5))`; whenever the trigger fires the
quantity is positive, at least `floor(b * 0.5)`, and restores stock to at
least the baseline; in the spec scenario (baseline 10000, remaining 500)
the trigger fires and the quantity is 9500. -/
theorem replenishment_quantity_spec (item : String) (b : Nat) (remaining : Int)
    (hb : baselineOf item = some b) :
    calculate_replenishment_quantity item remaining
      = max ((b : Int) - remaining) ((b / 2 : Nat) : Int)
    ∧ (should_trigger_purchase item remaining = true →
        0 < calculate_replenishment_quantity item remaining
        ∧ ((b / 2 : Nat) : Int) ≤ calculate_replenishment_quantity item remaining
        ∧ (b : Int) ≤ remaining + calculate_replenishment_quantity item remaining)
    ∧ should_trigger_purchase "beans" 500 = true
    ∧ calculate_replenishment_quantity "beans" 500 = 9500 := by
  have heq : calculate_replenishment_quantity item remaining
      = max ((b : Int) - remaining) ((b / 2 : Nat) : Int) := by
    unfold calculate_replenishment_quantity
    rw [hb]
    rfl
  refine ⟨heq, ?_, by decide, by decide⟩
  intro _
  have hpos : (0 : Int) < ((b / 2 : Nat) : Int) := by
    rcases baselineOf_cases item b hb with h | h <;> subst h <;> decide
  have hmaxr := le_max_right ((b : Int) - remaining) ((b / 2 : Nat) : Int)
  have hmaxl := le_max_left ((b : Int) - remaining) ((b / 2 : Nat) : Int)
  refine ⟨?_, ?_, ?_⟩
  · rw [heq]; exact lt_of_lt_of_le hpos hmaxr
  · rw [heq]; exact hmaxr
  · rw [heq]; omega

/-- Witness for C6: at beans with remaining 500 the dispatched quantity is
positive and restores stock to at least the baseline. -/
theorem replenishment_quantity_spec_witness :
    0 < calculate_replenishment_quantity "beans" 500
    ∧ ((10000 : Nat) : Int) ≤ 500 + calculate_replenishment_quantity "beans" 500 := by
  have h := replenishment_quantity_spec "beans" 10000 500 (by decide)
  have h2 := h.2.1 h.2.2.1
  exact ⟨h2.1, h2.2.2⟩

/-- C10: a consumption row with a negative quantity increases the stored
stock: the new quantity is `current - quantity > current` (no validation
rejects negative quantities anywhere on the `/consume` path). -/
theorem negative_consumption_increases_stock (approvals : Nat → ApprovalOutcome)
    (st : InvState) (row : ConsumptionRow) (hq : row.quantity < 0)
    (hcur : 0 ≤ (lookupStock st.inventory row.item).getD 0) :
    lookupStock (apply_consumption approvals st [row]).inventory row.item
      = some ((lookupStock st.inventory row.item).getD 0 - row.quantity)
    ∧ (lookupStock st.inventory row.item).getD 0
        < (lookupStock st.inventory row.item).getD 0 - row.quantity := by
  have hmax : max ((lookupStock st.inventory row.item).getD 0 - row.quantity) 0
      = (lookupStock st.inventory row.item).getD 0 - row.quantity :=
    max_eq_left (by omega)
  constructor
  · rw [apply_consumption_singleton, applyRow_inventory, hmax, lookupStock_setStock_self]
  · omega

/-- Witness for C10: consuming -5 beans from a stock of 10 leaves 15. -/
theorem negative_consumption_increases_stock_witness :
    lookupStock (apply_consumption (fun _ => ApprovalOutcome.response 200 "ok")
        ⟨[("beans", 10)], []⟩ [⟨"beans", -5⟩]).inventory "beans" = some 15 := by
  have h := negative_consumption_increases_stock (fun _ => ApprovalOutcome.response 200 "ok")
      ⟨[("beans", 10)], []⟩ ⟨"beans", -5⟩ (by decide) (by decide)
  exact h.1.trans (by decide)

/-- C4 counterexample: the Approval call returning HTTP 301 — a non-2xx
response — is logged with status submitted, because `raise_for_status` only
raises for status codes in [400, 600); so "non-success (non-2xx) response
implies status failed" is false as stated. -/
theorem dispatcher_non2xx_counterexample :
    (trigger_purchase_request (.response 301 "redirect") [] "beans" 500).1
      = [⟨"beans", 9500, some "g", 500, "submitted", some "redirect"⟩]
    ∧ ("submitted" : String) ≠ "failed" := by
  exact ⟨by decide, by decide⟩

/-- C4 (amended): when the dispatcher's Approval call raises a transport
error or returns an HTTP 4xx/5xx response (the statuses for which
`raise_for_status` raises), the logged row has status failed with the error
text persisted; on a response outside [400, 600) the status is submitted
with the response body persisted; in every case exactly one row is inserted
(one Approval call, no retry) and the function returns normally. -/
theorem dispatcher_failure_logging (outcome : ApprovalOutcome) (log : List ProcEntry)
    (item : String) (remaining : Int)
    (hopen : has_open_procurement log item = false) :
    trigger_purchase_request outcome log item remaining
      = (log ++ [mkProcEntry item remaining (dispatchStatus outcome).1 (dispatchStatus outcome).2], 1)
    ∧ ((dispatchStatus outcome).1 = "submitted" ∨ (dispatchStatus outcome).1 = "failed")
    ∧ (∀ msg, outcome = .transportError msg →
        (dispatchStatus outcome).1 = "failed" ∧ (dispatchStatus outcome).2 = some msg)
    ∧ (∀ code body, outcome = .response code body → raise_for_status_fails code = true →
        (dispatchStatus outcome).1 = "failed" ∧ (dispatchStatus outcome).2.isSome = true)
    ∧ (∀ code body, outcome = .response code body → raise_for_status_fails code = false →
        (dispatchStatus outcome).1 = "submitted" ∧ (dispatchStatus outcome).2 = some body) := by
  refine ⟨?_, ?_, ?_, ?_, ?_⟩
  · unfold trigger_purchase_request
    rw [if_neg (by simp [hopen])]
  · cases outcome with
    | transportError msg => right; rfl
    | response code body =>
      by_cases h : raise_for_status_fails code = true
      · right; simp [dispatchStatus, h]
      · left; simp [dispatchStatus, h]
  · intro msg hmsg
    subst hmsg
    exact ⟨rfl, rfl⟩
  · intro code body hcb hfail
    subst hcb
    simp [dispatchStatus, hfail]
  · intro code body hcb hok
    subst hcb
    simp [dispatchStatus, hok]

/-- Witness for C4: a 503 response is logged as one failed row with the
error text persisted. -/
theorem dispatcher_failure_logging_witness :
    trigger_purchase_request (.response 503 "oops") [] "beans" 500
      = ([mkProcEntry "beans" 500 "failed" (some (httpErrorText 503))], 1)
    ∧ (dispatchStatus (.response 503 "oops")).1 = "failed" := by
  have h := dispatcher_failure_logging (.response 503 "oops") [] "beans" 500 (by decide)
  exact ⟨h.1.trans (by decide), (h.2.2.2.1 503 "oops" rfl (by decide)).1⟩

/-- C8 counterexample: the recipe table keys are case-sensitive and hold
"Latte" with a capital L, so the claimed scenario with product "latte"
does not reach the feasibility gate at all: the run returns the
no-recipes-matched result and writes nothing, instead of the claimed
Failure with a beans shortfall. -/
theorem latte_case_counterexample :
    start_production RECIPES [⟨"2025-01-01", "latte", 5⟩] [("beans", 30), ("milk", 2000)]
        "2025-01-01" []
      = (.no_recipes_matched ["latte"], [])
    ∧ ProdResult.no_recipes_matched ["latte"]
        ≠ ProdResult.insufficient [⟨"beans", 40, 30, "g"⟩]
            [⟨"beans", 40, "g"⟩, ⟨"milk", 1000, "ml"⟩] := by
  exact ⟨by decide, by decide⟩

/-- C8 (amended): with the product spelled "Latte" as in the recipe table,
orders [{date: 2025-01-01, product: Latte, quantity: 5}] yield required
{beans: 40 g, milk: 1000 ml}; against stock {beans: 30, milk: 2000} the run
fails with shortfall exactly [{beans, required 40, available 30}] and zero
batch rows are written (milk included). -/
theorem latte_scenario_amended :
    start_production RECIPES [⟨"2025-01-01", "Latte", 5⟩] [("beans", 30), ("milk", 2000)]
        "2025-01-01" []
      = (.insufficient [⟨"beans", 40, 30, "g"⟩]
          [⟨"beans", 40, "g"⟩, ⟨"milk", 1000, "ml"⟩], []) := by
  decide

/-- C2: processing a consumption row stores `max(current - quantity, 0)` for
that row's item (creating it from current quantity 0 when absent — the
lookup returns `some` afterwards in every case), every stored quantity stays
non-negative when it started non-negative (over-consumption is clamped, no
error is surfaced: the function is total), and the replenishment trigger and
dispatcher are evaluated with the post-consumption quantity. -/
theorem apply_consumption_clamps_nonneg (approvals : Nat → ApprovalOutcome) (st : InvState)
    (rows : List ConsumptionRow) (k : Nat) (row : ConsumptionRow)
    (hpos : ∀ p ∈ st.inventory, 0 ≤ p.2) :
    lookupStock (applyRow approvals k st row).1.inventory row.item
      = some (max ((lookupStock st.inventory row.item).getD 0 - row.quantity) 0)
    ∧ (∀ p ∈ (apply_consumption approvals st rows).inventory, 0 ≤ p.2)
    ∧ (applyRow approvals k st row).1.procurement_log
        = (if should_trigger_purchase row.item
              (max ((lookupStock st.inventory row.item).getD 0 - row.quantity) 0) = true
           then (trigger_purchase_request (approvals k) st.procurement_log row.item
                  (max ((lookupStock st.inventory row.item).getD 0 - row.quantity) 0)).1
           else st.procurement_log) := by
  refine ⟨?_, ?_, applyRow_log approvals k st row⟩
  · rw [applyRow_inventory, lookupStock_setStock_self]
  · exact apply_consumption_nonneg_aux approvals rows (st, 0) hpos

/-- Witness for C2: consuming 9500 beans from a stock of 10000 leaves 500. -/
theorem apply_consumption_clamps_nonneg_witness :
    lookupStock (applyRow (fun _ => ApprovalOutcome.response 200 "ok") 0
        ⟨[("beans", 10000)], []⟩ ⟨"beans", 9500⟩).1.inventory "beans" = some 500 := by
  have h := apply_consumption_clamps_nonneg (fun _ => ApprovalOutcome.response 200 "ok")
      ⟨[("beans", 10000)], []⟩ [⟨"beans", 9500⟩] 0 ⟨"beans", 9500⟩ (by decide)
  exact h.1.trans (by decide)

/-- C3: when the procurement log already holds an open (pending or
submitted) row for an item, the dispatcher is a no-op — the log is unchanged
and zero Approval calls are made — and consequently the dispatcher preserves
the at-most-one-open-row-per-item invariant. -/
theorem dispatcher_open_request_noop (outcome : ApprovalOutcome) (log : List ProcEntry)
    (item : String) (remaining : Int) :
    (has_open_procurement log item = true →
       trigger_purchase_request outcome log item remaining = (log, 0))
    ∧ (ProcInvariant log →
       ProcInvariant (trigger_purchase_request outcome log item remaining).1) := by
  constructor
  · intro h
    unfold trigger_purchase_request
    rw [if_pos (by simp [h])]
  · intro hinv
    by_cases h : has_open_procurement log item = true
    · unfold trigger_purchase_request
      rw [if_pos (by simp [h])]
      exact hinv
    · have hfalse : has_open_procurement log item = false := Bool.eq_false_iff.mpr h
      have hnil : openRows log item = [] := openRows_eq_nil_of_not_open log item hfalse
      have hTP : (trigger_purchase_request outcome log item remaining).1
          = log ++ [mkProcEntry item remaining (dispatchStatus outcome).1 (dispatchStatus outcome).2] := by
        unfold trigger_purchase_request
        rw [if_neg (by simp [hfalse])]
      rw [hTP]
      intro e he hopen
      rw [openRows_append]
      by_cases heq : e.item_name = item
      · rw [heq, hnil, List.nil_append]
        exact le_trans (List.length_filter_le _ _) (by simp)
      · have hsingle : openRows
            [mkProcEntry item remaining (dispatchStatus outcome).1 (dispatchStatus outcome).2]
            e.item_name = [] := by
          unfold openRows
          rw [List.filter_eq_nil_iff]
          intro x hx
          simp only [List.mem_singleton] at hx
          subst hx
          simp [mkProcEntry, Ne.symm heq]
        rw [hsingle, List.append_nil]
        rcases List.mem_append.mp he with hmem | hmem
        · exact hinv e hmem hopen
        · exfalso
          apply heq
          simp only [List.mem_singleton] at hmem
          subst hmem
          rfl

/-- Witness for C3: with an open submitted beans row in the log, a second
dispatch for beans changes nothing and makes no Approval call. -/
theorem dispatcher_open_request_noop_witness :
    trigger_purchase_request (.response 200 "ok")
        [⟨"beans", 9500, some "g", 500, "submitted", some "ok"⟩] "beans" 400
      = ([⟨"beans", 9500, some "g", 500, "submitted", some "ok"⟩], 0) :=
  (dispatcher_open_request_noop (.response 200 "ok")
    [⟨"beans", 9500, some "g", 500, "submitted", some "ok"⟩] "beans" 400).1 (by decide)

/-- C7: if no fetched order has a date string-equal to the production date,
the run returns the distinguished no-orders result and writes nothing; if a
matching order exists but the aggregated requirements are empty, the run
returns the distinguished no-recipes-matched result, writes nothing, and its
skipped-products list contains every matching order's product. -/
theorem planner_distinguished_results (recipes : String → List RecipeLine) (orders : List Order)
    (stock : List (String × Int)) (production_date : String) (log : List BatchRow) :
    (daily_orders orders production_date = [] →
        start_production recipes orders stock production_date log = (.no_orders, log))
    ∧ (daily_orders orders production_date ≠ [] →
       (computeRequired recipes (daily_orders orders production_date)).1 = [] →
         start_production recipes orders stock production_date log
           = (.no_recipes_matched
               (computeRequired recipes (daily_orders orders production_date)).2, log)
         ∧ ∀ o ∈ daily_orders orders production_date,
             o.product ∈ (computeRequired recipes (daily_orders orders production_date)).2) := by
  constructor
  · intro h
    simp only [start_production]
    rw [if_pos (by simp [h])]
  · intro hne hnil
    have hde : (daily_orders orders production_date).isEmpty = false :=
      List.isEmpty_eq_false.mpr hne
    constructor
    · simp only [start_production]
      rw [if_neg (by simp [hde]), if_pos (by simp [hnil])]
    · intro o ho
      have hall := computeRequiredAux_all_skipped_of_nil recipes
        (daily_orders orders production_date) [] [] hnil o ho
      exact computeRequiredAux_skipped_mem recipes
        (daily_orders orders production_date) [] [] o ho hall

/-- Witness for C7: a date with no orders returns no-orders; a date whose
only order has the unknown product "latte" returns no-recipes-matched with
"latte" among the skipped products, in both cases writing nothing. -/
theorem planner_distinguished_results_witness :
    start_production RECIPES [⟨"2025-01-01", "latte", 5⟩] [] "2025-02-02" [] = (.no_orders, [])
    ∧ start_production RECIPES [⟨"2025-01-01", "latte", 5⟩] [] "2025-01-01" []
        = (.no_recipes_matched ["latte"], []) := by
  refine ⟨(planner_distinguished_results RECIPES [⟨"2025-01-01", "latte", 5⟩] []
      "2025-02-02" []).1 (by decide), ?_⟩
  have h := ((planner_distinguished_results RECIPES [⟨"2025-01-01", "latte", 5⟩] []
      "2025-01-01" []).2 (by decide) (by decide)).1
  exact h.trans (by decide)

/-- C1: for a run whose aggregated requirements are non-empty, some required
item is short of stock exactly when the shortfall list is non-empty; in that
case the run aborts carrying the full shortfall list — containing an entry
for every insufficient item, not just the first — and writes zero batch
rows; when no item is short, the run succeeds, appends exactly one batch row
per required item, and reports that count. -/
theorem start_production_feasibility_gate (recipes : String → List RecipeLine)
    (orders : List Order) (stock : List (String × Int)) (production_date : String)
    (log : List BatchRow)
    (hreq : (computeRequired recipes (daily_orders orders production_date)).1 ≠ []) :
    ((∃ e ∈ (computeRequired recipes (daily_orders orders production_date)).1,
        stockAvail stock e.item < e.quantity) ↔
      shortRequirements stock (computeRequired recipes (daily_orders orders production_date)).1
        ≠ [])
    ∧ (shortRequirements stock (computeRequired recipes (daily_orders orders production_date)).1
        ≠ [] →
        start_production recipes orders stock production_date log
          = (.insufficient
              (shortRequirements stock
                (computeRequired recipes (daily_orders orders production_date)).1)
              (computeRequired recipes (daily_orders orders production_date)).1, log)
        ∧ ∀ e ∈ (computeRequired recipes (daily_orders orders production_date)).1,
            stockAvail stock e.item < e.quantity →
            mkShortfall stock e
              ∈ shortRequirements stock
                  (computeRequired recipes (daily_orders orders production_date)).1)
    ∧ (shortRequirements stock (computeRequired recipes (daily_orders orders production_date)).1
        = [] →
        start_production recipes orders stock production_date log
          = (.success (computeRequired recipes (daily_orders orders production_date)).1.length
              (computeRequired recipes (daily_orders orders production_date)).1
              (computeRequired recipes (daily_orders orders production_date)).2,
             log ++ batchRowsFor production_date
               (computeRequired recipes (daily_orders orders production_date)).1)) := by
  have hdne : daily_orders orders production_date ≠ [] := by
    intro h0
    apply hreq
    rw [h0]
    rfl
  have hde : (daily_orders orders production_date).isEmpty = false :=
    List.isEmpty_eq_false.mpr hdne
  have hre : (computeRequired recipes (daily_orders orders production_date)).1.isEmpty = false :=
    List.isEmpty_eq_false.mpr hreq
  refine ⟨?_, ?_, ?_⟩
  · constructor
    · rintro ⟨e, he, hlt⟩ hnil
      unfold shortRequirements at hnil
      rw [List.map_eq_nil_iff, List.filter_eq_nil_iff] at hnil
      exact hnil e he (by simpa using hlt)
    · intro hne
      by_contra hnot
      push_neg at hnot
      apply hne
      unfold shortRequirements
      rw [List.map_eq_nil_iff, List.filter_eq_nil_iff]
      intro e he
      simp only [decide_eq_true_eq]
      exact not_lt.mpr (hnot e he)
  · intro hne
    have hse : (shortRequirements stock
        (computeRequired recipes (daily_orders orders production_date)).1).isEmpty = false :=
      List.isEmpty_eq_false.mpr hne
    constructor
    · simp only [start_production]
      rw [if_neg (by simp [hde]), if_neg (by simp [hre]), if_neg (by simp [hse])]
    · intro e he hlt
      unfold shortRequirements
      exact List.mem_map_of_mem _ (List.mem_filter.mpr ⟨he, by simpa using hlt⟩)
  · intro hnil
    simp only [start_production]
    rw [if_neg (by simp [hde]), if_neg (by simp [hre]), if_pos (by simp [hnil])]

/-- Witness for C1: Latte times 5 against stock beans 30 and milk 100 aborts
with both shortfalls collected (beans and milk), writing nothing. -/
theorem start_production_feasibility_gate_witness :
    start_production RECIPES [⟨"2025-01-01", "Latte", 5⟩] [("beans", 30), ("milk", 100)]
        "2025-01-01" []
      = (.insufficient [⟨"beans", 40, 30, "g"⟩, ⟨"milk", 1000, 100, "ml"⟩]
          [⟨"beans", 40, "g"⟩, ⟨"milk", 1000, "ml"⟩], []) := by
  have h := start_production_feasibility_gate RECIPES [⟨"2025-01-01", "Latte", 5⟩]
      [("beans", 30), ("milk", 100)] "2025-01-01" [] (by decide)
  exact ((h.2.1 (by decide)).1).trans (by decide)

/-- C9: a successful production run appends a non-empty block of rows, and
re-running the same date with the same orders and stock snapshot succeeds
again and appends the identical block a second time — duplicate rows, no
upsert (the batch table carries no uniqueness constraint beyond its
autoincrement id). -/
theorem rerun_appends_duplicate_rows (recipes : String → List RecipeLine) (orders : List Order)
    (stock : List (String × Int)) (production_date : String) (log log₁ : List BatchRow)
    (n : Nat) (req : List ReqEntry) (sk : List String)
    (h : start_production recipes orders stock production_date log = (.success n req sk, log₁)) :
    ∃ rows : List BatchRow, rows ≠ []
      ∧ log₁ = log ++ rows
      ∧ start_production recipes orders stock production_date log₁
          = (.success n req sk, log₁ ++ rows) := by
  simp only [start_production] at h
  by_cases hde : (daily_orders orders production_date).isEmpty = true
  · rw [if_pos hde] at h
    simp at h
  · rw [if_neg hde] at h
    by_cases hre :
        (computeRequired recipes (daily_orders orders production_date)).1.isEmpty = true
    · rw [if_pos hre] at h
      simp at h
    · rw [if_neg hre] at h
      by_cases hse : (shortRequirements stock
          (computeRequired recipes (daily_orders orders production_date)).1).isEmpty = true
      · rw [if_pos hse] at h
        injection h with hres hlog
        injection hres with h1 h2 h3
        subst h1
        subst h2
        subst h3
        subst hlog
        refine ⟨batchRowsFor production_date
          (computeRequired recipes (daily_orders orders production_date)).1, ?_, rfl, ?_⟩
        · have hnn : (computeRequired recipes (daily_orders orders production_date)).1 ≠ [] :=
            List.isEmpty_eq_false.mp (Bool.eq_false_iff.mpr hre)
          unfold batchRowsFor
          rw [Ne, List.map_eq_nil_iff]
          exact hnn
        · simp only [start_production]
          rw [if_neg hde, if_neg hre, if_pos hse]
      · rw [if_neg hse] at h
        simp at h

/-- Witness for C9: after a successful run for 2025-01-01 (Latte times 5,
ample stock) produced two rows, running the same date again appends the same
two rows a second time. -/
theorem rerun_appends_duplicate_rows_witness :
    ∃ rows : List BatchRow, rows ≠ []
      ∧ ([⟨"2025-01-01", "beans", 40, "g"⟩, ⟨"2025-01-01", "milk", 1000, "ml"⟩] : List BatchRow)
          = [] ++ rows
      ∧ start_production RECIPES [⟨"2025-01-01", "Latte", 5⟩] [("beans", 100), ("milk", 2000)]
          "2025-01-01" [⟨"2025-01-01", "beans", 40, "g"⟩, ⟨"2025-01-01", "milk", 1000, "ml"⟩]
          = (.success 2 [⟨"beans", 40, "g"⟩, ⟨"milk", 1000, "ml"⟩] [],
             [⟨"2025-01-01", "beans", 40, "g"⟩, ⟨"2025-01-01", "milk", 1000, "ml"⟩] ++ rows) :=
  rerun_appends_duplicate_rows RECIPES [⟨"2025-01-01", "Latte", 5⟩]
    [("beans", 100), ("milk", 2000)] "2025-01-01" []
    [⟨"2025-01-01", "beans", 40, "g"⟩, ⟨"2025-01-01", "milk", 1000, "ml"⟩]
    2 [⟨"beans", 40, "g"⟩, ⟨"milk", 1000, "ml"⟩] [] (by decide)

end Indago
